import Mathlib

/-!
Verification of the real-time ride-dispatch core of the Remis La Unión
Dolores backend (Express + socket.io server).

The embedding models, faithfully to the server source:
- `calculateFare` — the fare calculator (pure arithmetic, `Math.round` as
  floor of x + 1/2), stated generically over a linear ordered field so it
  can be read back at `ℚ` (exact arithmetic) and used at `ℝ` in the server
  model;
- `getDistance` — the haversine great-circle distance over `ℝ`, with
  `Math.atan2` modelled by the argument of the complex number x + y i;
- the websocket layer: the two global maps (`activeDrivers`, keyed by
  socket id, and `rideRequests`, keyed by request id) as association
  lists with JavaScript `Map` get/set/delete semantics, and the event
  handlers (`driver-location`, `request-ride`, `accept-ride`,
  `disconnect`) as a step function on a server state.  Each handler body
  is a straight-line list of primitive operations (`Op`), so statement
  order inside a handler is preserved and temporal claims about it are
  statable.  The asynchronous supabase insert of `accept-ride` is
  modelled by scheduling a pending callback; a separate event delivers
  its completion, in any order, which is exactly the event-loop behaviour
  of the source (the `.then` continuation runs as a later task).
-/

namespace RemisDispatch

/-! ## JavaScript `Map` on association lists -/

/-- `Map.prototype.get`: the value stored under the first matching key. -/
def mapGet {α : Type} : List (String × α) → String → Option α
  | [], _ => none
  | (k', v) :: rest, k => if k' = k then some v else mapGet rest k

/-- `Map.prototype.set`: overwrite the entry for the key if present,
otherwise append a new entry (JS maps keep insertion order). -/
def mapSet {α : Type} : List (String × α) → String → α → List (String × α)
  | [], k, v => [(k, v)]
  | (k', v') :: rest, k, v =>
      if k' = k then (k, v) :: rest else (k', v') :: mapSet rest k v

/-- `Map.prototype.delete`: remove the entry for the key, if any. -/
def mapDelete {α : Type} : List (String × α) → String → List (String × α)
  | [], _ => []
  | (k', v') :: rest, k => if k' = k then rest else (k', v') :: mapDelete rest k

/-- How many entries of the association list carry the given key. -/
def countKey {α : Type} : List (String × α) → String → Nat
  | [], _ => 0
  | (k', _) :: rest, k => (if k' = k then 1 else 0) + countKey rest k

theorem mapGet_mapSet_self {α : Type} (m : List (String × α)) (k : String) (v : α) :
    mapGet (mapSet m k v) k = some v := by
  induction m with
  | nil => simp [mapSet, mapGet]
  | cons p rest ih =>
      obtain ⟨k', v'⟩ := p
      by_cases h : k' = k <;> simp [mapSet, mapGet, h, ih]

theorem mapGet_mapSet_ne {α : Type} (m : List (String × α)) (k k' : String) (v : α)
    (h : k' ≠ k) : mapGet (mapSet m k v) k' = mapGet m k' := by
  induction m with
  | nil => simp [mapSet, mapGet, Ne.symm h]
  | cons p rest ih =>
      obtain ⟨k₀, v₀⟩ := p
      by_cases h₀ : k₀ = k
      · subst h₀
        simp [mapSet, mapGet, Ne.symm h]
      · by_cases h₁ : k₀ = k' <;> simp [mapSet, mapGet, h₀, h₁, h, ih]

theorem countKey_mapSet {α : Type} (m : List (String × α)) (k : String) (v : α)
    (h : countKey m k ≤ 1) : countKey (mapSet m k v) k = 1 := by
  induction m with
  | nil => simp [mapSet, countKey]
  | cons p rest ih =>
      obtain ⟨k', v'⟩ := p
      by_cases hk : k' = k
      · have h1 : countKey rest k = 0 := by
          simp only [countKey, if_pos hk] at h
          omega
        simp [mapSet, countKey, hk, h1]
      · have h1 : countKey rest k ≤ 1 := by
          simp only [countKey, if_neg hk, zero_add] at h
          exact h
        simp [mapSet, countKey, hk, ih h1]

/-! ## Calculator logic (`calculateFare`, source lines 23–42) -/

/-- The object literal `calculateFare` returns:
`{ base, distance, time, commission, total }`, `total` already rounded by
`Math.round`. -/
structure Fare (α : Type) where
  base : α
  distance : α
  time : α
  commission : α
  total : ℤ
  deriving Repr

/-- `calculateFare(distanceKm, durationMin)` of the source, with
JavaScript number arithmetic idealised as exact field arithmetic and
`Math.round x` as `⌊x + 1/2⌋`. -/
def calculateFare {α : Type} [LinearOrderedField α] [FloorRing α]
    (distanceKm durationMin : α) : Fare α :=
  let BASE_FARE : α := 50
  let KM_RATE : α := 10
  let TIME_RATE : α := 2
  let COMMISSION_RATE : α := 0.2
  let distanceCharge := distanceKm * KM_RATE
  let timeCharge := durationMin * TIME_RATE
  let subtotal := BASE_FARE + distanceCharge + timeCharge
  let commission := subtotal * COMMISSION_RATE
  let total := subtotal + commission
  { base := BASE_FARE
    distance := distanceCharge
    time := timeCharge
    commission := commission
    total := ⌊total + 1/2⌋ }

/-! ## Geo utility (`getDistance`, source lines 44–53) -/

/-- `Math.atan2 y x`: the argument of the complex number `x + y i`. -/
noncomputable def atan2 (y x : ℝ) : ℝ := Complex.arg ⟨x, y⟩

theorem atan2_zero_one : atan2 0 1 = 0 := by
  have h : (⟨1, 0⟩ : ℂ) = 1 := by
    apply Complex.ext <;> simp
  simp [atan2, h, Complex.arg_one]

/-- `getDistance(lat1, lon1, lat2, lon2)`: haversine great-circle
distance with Earth radius 6371 km. -/
noncomputable def getDistance (lat1 lon1 lat2 lon2 : ℝ) : ℝ :=
  let R : ℝ := 6371
  let dLat := (lat2 - lat1) * Real.pi / 180
  let dLon := (lon2 - lon1) * Real.pi / 180
  let a := Real.sin (dLat / 2) * Real.sin (dLat / 2) +
      Real.cos (lat1 * Real.pi / 180) * Real.cos (lat2 * Real.pi / 180) *
      Real.sin (dLon / 2) * Real.sin (dLon / 2)
  let c := 2 * atan2 (Real.sqrt a) (Real.sqrt (1 - a))
  R * c

/-- `getRouteDistance(pickup, dropoff)`: straight-line distance and the
placeholder duration model `duration = distance * 2`. -/
noncomputable def getRouteDistanceKm (plat plng dlat dlng : ℝ) : ℝ × ℝ :=
  let distance := getDistance plat plng dlat dlng
  (distance, distance * 2)

/-! ## Websocket layer (source lines 142–219) -/

/-- A `{lat, lng}` coordinate object. -/
structure Coord where
  lat : ℝ
  lng : ℝ

/-- A value of the `activeDrivers` map:
`{ driverId: socket.user.id, lat, lng }` (source line 162). -/
structure DriverEntry where
  driverId : String
  lat : ℝ
  lng : ℝ

/-- A value of the `rideRequests` map (source lines 170–177). -/
structure RideRequest where
  passengerId : String
  pickup : Coord
  dropoff : Coord
  fare : Fare ℝ
  distance : ℝ
  duration : ℝ

/-- The `RideRequest` object built by the `request-ride` handler from the
submitting user and the trip, with its fare, distance and duration
(source lines 166–177). -/
noncomputable def mkRideRequest (uid : String) (pickup dropoff : Coord) : RideRequest :=
  let route := getRouteDistanceKm pickup.lat pickup.lng dropoff.lat dropoff.lng
  { passengerId := uid
    pickup := pickup
    dropoff := dropoff
    fare := calculateFare route.1 route.2
    distance := route.1
    duration := route.2 }

/-- An outbound socket.io message, by event name and payload. -/
inductive Msg where
  | newRideRequest (requestId : String) (pickup dropoff : Coord) (fare : Fare ℝ)
  | requestSent (requestId : String) (fare : Fare ℝ)
  | rideAccepted (driverId : String) (lat lng : ℝ)
  | rideStarted (rideId : String)

/-- An emission: the destination room (socket.io delivers `io.to(x)` and
`socket.emit` alike to a room name: every socket is in the room of its own
id) and the message. -/
abbrev Emission : Type := String × Msg

/-- The closure state captured by the supabase insert continuation of the
`accept-ride` handler (source lines 196–213): the accepting socket, the
request id and the `request` and `driver` objects read before the insert. -/
structure PendingInsert where
  sid : String
  requestId : String
  request : RideRequest
  driver : DriverEntry

/-- The whole mutable server state: the two global maps, the pending
supabase insert continuations, and the log of messages emitted so far. -/
structure ServerState where
  activeDrivers : List (String × DriverEntry)
  rideRequests : List (String × RideRequest)
  pendingInserts : List PendingInsert
  outbox : List Emission

/-- One primitive statement of a handler body: a mutation of one of the
global maps, an `emit`, or handing an insert to supabase (scheduling its
`.then` continuation). Handler bodies are lists of these, in source
statement order, so temporal claims about a handler are statable. -/
inductive Op where
  | registrySet (k : String) (v : DriverEntry)
  | registryDelete (k : String)
  | ledgerSet (k : String) (v : RideRequest)
  | ledgerDelete (k : String)
  | send (dest : String) (m : Msg)
  | schedule (pi : PendingInsert)

/-- Execute one primitive operation on the state. -/
def applyOp (st : ServerState) : Op → ServerState
  | .registrySet k v => { st with activeDrivers := mapSet st.activeDrivers k v }
  | .registryDelete k => { st with activeDrivers := mapDelete st.activeDrivers k }
  | .ledgerSet k v => { st with rideRequests := mapSet st.rideRequests k v }
  | .ledgerDelete k => { st with rideRequests := mapDelete st.rideRequests k }
  | .send dest m => { st with outbox := st.outbox ++ [(dest, m)] }
  | .schedule p => { st with pendingInserts := st.pendingInserts ++ [p] }

/-- Execute a handler body in statement order. -/
def runOps (st : ServerState) (ops : List Op) : ServerState :=
  ops.foldl applyOp st

/-- An inbound event of the dispatch core.  `insertComplete n result`
models the settling of the n-th outstanding supabase insert promise:
promises may settle in any order relative to later socket events, which
is how the source's `.then` continuation behaves on the event loop. -/
inductive InsertResult where
  | err
  | ok (rideId : String)

inductive Event where
  | driverLocation (sid uid : String) (lat lng : ℝ)
  | requestRide (sid uid : String) (pickup dropoff : Coord) (freshId : String)
  | acceptRide (sid : String) (requestId : String)
  | insertComplete (n : Nat) (result : InsertResult)
  | disconnect (sid : String)

open Classical

/-- The body of a synchronous handler, as the list of its primitive
statements in source order.

* `driver-location` (source lines 161–163): one registry write.
* `request-ride` (source lines 165–187): store the request under the
  generated id, then `forEach` over `activeDrivers` emitting
  `new-ride-request` to every driver strictly within 5 km of the pickup,
  then emit `request-sent` to the requester.  The generated id
  (`Math.random().toString(36)`) is an input: the source gives no
  freshness guarantee for it.  The strict comparison with 5 needs a
  decidability instance for a real inequality, hence the classical one
  (opened right before this definition).
* `accept-ride` (source lines 189–214): if the request id is unknown,
  return with no effect; if the caller has no registry entry, return
  with no effect; otherwise hand the insert to supabase — the ledger is
  not touched and nothing is emitted until the insert settles.
* `disconnect` (source lines 216–218): one registry delete. -/
noncomputable def program (st : ServerState) : Event → List Op
  | .driverLocation sid uid lat lng => [.registrySet sid ⟨uid, lat, lng⟩]
  | .requestRide sid uid pickup dropoff freshId =>
      let request := mkRideRequest uid pickup dropoff
      Op.ledgerSet freshId request ::
        (st.activeDrivers.filter
            (fun p => decide (getDistance p.2.lat p.2.lng pickup.lat pickup.lng < 5))).map
          (fun p => Op.send p.1 (Msg.newRideRequest freshId pickup dropoff request.fare))
        ++ [Op.send sid (Msg.requestSent freshId request.fare)]
  | .acceptRide sid requestId =>
      match mapGet st.rideRequests requestId with
      | none => []
      | some request =>
          match mapGet st.activeDrivers sid with
          | none => []
          | some driver => [.schedule ⟨sid, requestId, request, driver⟩]
  | .insertComplete _ _ => []
  | .disconnect sid => [.registryDelete sid]

/-- The `.then` continuation of the supabase insert (source lines
203–213), as its list of primitive statements in source order: on an
insert error, return; on success, emit `ride-accepted` to the
passenger's room, emit `ride-started` to the accepting socket, then
delete the ledger entry. -/
def callbackProgram (p : PendingInsert) : InsertResult → List Op
  | .err => []
  | .ok rideId =>
      [.send p.request.passengerId (.rideAccepted p.driver.driverId p.driver.lat p.driver.lng),
       .send p.sid (.rideStarted rideId),
       .ledgerDelete p.requestId]

/-- Deliver one event to the server: run the matching handler body.
Settling an outstanding insert consumes its pending continuation and
runs it. -/
noncomputable def step (st : ServerState) (e : Event) : ServerState :=
  match e with
  | .insertComplete n result =>
      match st.pendingInserts.get? n with
      | none => st
      | some p =>
          runOps { st with pendingInserts := st.pendingInserts.eraseIdx n }
            (callbackProgram p result)
  | _ => runOps st (program st e)

/-- Deliver a list of events in order: one interleaving of the event loop. -/
noncomputable def runEvents (st : ServerState) (es : List Event) : ServerState :=
  es.foldl step st

/-- Event delivery with the ambient wall-clock time made explicit.  The
websocket layer of the source never reads a clock (no `Date.now()` or
`new Date()` occurs in it), so delivering an event at time `now` is the
same as delivering it at any other time: `stepAt` ignores `now`. -/
noncomputable def stepAt (now : ℕ) (st : ServerState) (e : Event) : ServerState :=
  step st e

/-! ## Executing handler bodies -/

theorem runOps_cons (st : ServerState) (op : Op) (ops : List Op) :
    runOps st (op :: ops) = runOps (applyOp st op) ops := rfl

/-- A run of pure `emit` statements appends exactly those messages, in
order, and touches nothing else. -/
theorem runOps_sends (l : List Emission) :
    ∀ st : ServerState, runOps st (l.map fun p => Op.send p.1 p.2) =
      { st with outbox := st.outbox ++ l } := by
  induction l with
  | nil => intro st; simp [runOps]
  | cons p rest ih =>
      intro st
      simp only [List.map_cons, runOps_cons, applyOp, ih, List.append_assoc,
        List.singleton_append]

/-- What one `request-ride` event does to the state, in closed form: the
request is stored under the generated id, the drivers strictly within
5 km of the pickup (those in the registry at call time) are notified in
registry order, and the requester gets the `request-sent` receipt. -/
theorem step_requestRide (st : ServerState) (sid uid : String)
    (pickup dropoff : Coord) (freshId : String) :
    step st (Event.requestRide sid uid pickup dropoff freshId) =
      { st with
        rideRequests := mapSet st.rideRequests freshId (mkRideRequest uid pickup dropoff)
        outbox := st.outbox ++
          ((st.activeDrivers.filter
              (fun p => decide (getDistance p.2.lat p.2.lng pickup.lat pickup.lng < 5))).map
            (fun p =>
              (p.1, Msg.newRideRequest freshId pickup dropoff (mkRideRequest uid pickup dropoff).fare))
            ++ [(sid, Msg.requestSent freshId (mkRideRequest uid pickup dropoff).fare)]) } := by
  have hmap :
      ((st.activeDrivers.filter
          (fun p => decide (getDistance p.2.lat p.2.lng pickup.lat pickup.lng < 5))).map
        (fun p =>
          Op.send p.1 (Msg.newRideRequest freshId pickup dropoff (mkRideRequest uid pickup dropoff).fare))
        ++ [Op.send sid (Msg.requestSent freshId (mkRideRequest uid pickup dropoff).fare)]) =
      (((st.activeDrivers.filter
          (fun p => decide (getDistance p.2.lat p.2.lng pickup.lat pickup.lng < 5))).map
        (fun p =>
          (p.1, Msg.newRideRequest freshId pickup dropoff (mkRideRequest uid pickup dropoff).fare))
        ++ [(sid, Msg.requestSent freshId (mkRideRequest uid pickup dropoff).fare)]).map
          (fun q => Op.send q.1 q.2)) := by
    simp [List.map_map, Function.comp]
  simp only [step, program, List.cons_append, runOps_cons]
  rw [hmap, runOps_sends]
  rfl

/-! ## Claim C2 — the fare breakdown -/

/-- Claim C2: for every non-negative `distanceKm` and `durationMin`,
`calculateFare` returns base 50, distance charge `distanceKm × 10`, time
charge `durationMin × 2`, commission `0.20 ×` the subtotal, and total
the subtotal plus commission rounded half-up to the nearest integer; in
particular at `distanceKm = 10`, `durationMin = 20` the subtotal is 190,
the commission 38 and the total 228.  Stated over `ℚ` (exact
arithmetic); `round` is Mathlib's round-half-up. -/
theorem calculateFare_breakdown (d m : ℚ) (hd : 0 ≤ d) (hm : 0 ≤ m) :
    (calculateFare d m).base = 50 ∧
    (calculateFare d m).distance = d * 10 ∧
    (calculateFare d m).time = m * 2 ∧
    (calculateFare d m).commission = 0.20 * (50 + d * 10 + m * 2) ∧
    (calculateFare d m).total =
      round ((50 + d * 10 + m * 2) + 0.20 * (50 + d * 10 + m * 2)) ∧
    (calculateFare (10 : ℚ) 20).base + (calculateFare (10 : ℚ) 20).distance +
      (calculateFare (10 : ℚ) 20).time = 190 ∧
    (calculateFare (10 : ℚ) 20).commission = 38 ∧
    (calculateFare (10 : ℚ) 20).total = 228 := by
  refine ⟨rfl, rfl, rfl, ?_, ?_, by norm_num [calculateFare], by norm_num [calculateFare], ?_⟩
  · simp only [calculateFare]
    ring
  · simp only [calculateFare, round_eq]
    congr 1
    ring
  · norm_num [calculateFare, Int.floor_eq_iff]

theorem calculateFare_breakdown_witness :
    (0 : ℚ) ≤ 10 ∧ (0 : ℚ) ≤ 20 ∧ (calculateFare (10 : ℚ) 20).total = 228 :=
  ⟨by norm_num, by norm_num,
    (calculateFare_breakdown 10 20 (by norm_num) (by norm_num)).2.2.2.2.2.2.2⟩

/-! ## Claim C8 — symmetry and self-distance of `getDistance` -/

/-- Claim C8: the haversine distance (Earth radius 6371 km) is symmetric
in its two coordinates, and the distance from a point to itself is 0.
It is a total function on `ℝ` coordinates, so it has no failure modes. -/
theorem getDistance_symm_and_self :
    (∀ lat1 lon1 lat2 lon2 : ℝ,
        getDistance lat1 lon1 lat2 lon2 = getDistance lat2 lon2 lat1 lon1) ∧
    (∀ lat lon : ℝ, getDistance lat lon lat lon = 0) := by
  constructor
  · intro lat1 lon1 lat2 lon2
    have hs : ∀ x y : ℝ,
        Real.sin ((x - y) * Real.pi / 180 / 2) = -Real.sin ((y - x) * Real.pi / 180 / 2) := by
      intro x y
      rw [show (x - y) * Real.pi / 180 / 2 = -((y - x) * Real.pi / 180 / 2) by ring,
        Real.sin_neg]
    have hA : Real.sin ((lat2 - lat1) * Real.pi / 180 / 2) *
          Real.sin ((lat2 - lat1) * Real.pi / 180 / 2) +
        Real.cos (lat1 * Real.pi / 180) * Real.cos (lat2 * Real.pi / 180) *
          Real.sin ((lon2 - lon1) * Real.pi / 180 / 2) *
          Real.sin ((lon2 - lon1) * Real.pi / 180 / 2) =
        Real.sin ((lat1 - lat2) * Real.pi / 180 / 2) *
          Real.sin ((lat1 - lat2) * Real.pi / 180 / 2) +
        Real.cos (lat2 * Real.pi / 180) * Real.cos (lat1 * Real.pi / 180) *
          Real.sin ((lon1 - lon2) * Real.pi / 180 / 2) *
          Real.sin ((lon1 - lon2) * Real.pi / 180 / 2) := by
      rw [hs lat2 lat1, hs lon2 lon1]
      ring
    simp only [getDistance]
    rw [hA]
  · intro lat lon
    simp [getDistance, sub_self, Real.sin_zero, Real.sqrt_zero, Real.sqrt_one,
      atan2_zero_one]

/-! ## Claims C3 and C9 — failed accepts are silent no-ops -/

/-- A state with one registered driver and an empty ledger. -/
noncomputable def stC3 : ServerState :=
  { activeDrivers := [("s1", ⟨"d1", 0, 0⟩)]
    rideRequests := []
    pendingInserts := []
    outbox := [] }

/-- Counterexample to claim C3 as stated: an accept for an unknown (or
already removed) request id leaves the state completely unchanged — in
particular, with an empty outbox before the call, no `NotFound` or
`AlreadyClaimed` error message is emitted to the calling driver
connection, although the claim says one always is. -/
theorem accept_missing_silent_cex :
    step stC3 (Event.acceptRide "s1" "zzz") = stC3 ∧ stC3.outbox = [] :=
  ⟨rfl, rfl⟩

/-- Claim C3 (amended): an accept for a request id that is not in the
ledger (never existed, or already claimed and removed) is a silent
no-op: the handler returns without mutating the ledger, the registry or
the pending inserts, and without emitting anything to anyone — not even
an error to the caller. -/
theorem accept_missing_noop (st : ServerState) (sid requestId : String)
    (h : mapGet st.rideRequests requestId = none) :
    step st (Event.acceptRide sid requestId) = st := by
  simp [step, program, h, runOps]

theorem accept_missing_noop_witness :
    mapGet stC3.rideRequests "zzz" = none ∧
    step stC3 (Event.acceptRide "s1" "zzz") = stC3 :=
  ⟨rfl, accept_missing_noop stC3 "s1" "zzz" rfl⟩

/-- A state with one PENDING request and an empty driver registry. -/
noncomputable def stC9 : ServerState :=
  { activeDrivers := []
    rideRequests := [("R1", ⟨"p0", ⟨0, 0⟩, ⟨0, 0⟩, ⟨50, 0, 0, 10, 60⟩, 0, 0⟩)]
    pendingInserts := []
    outbox := [] }

/-- Claim C9: an accept from a connection with no registry entry (never
reported a location, or already disconnected) is a complete no-op even
when the request id names a valid PENDING request: the request stays in
the ledger, no insert is handed to persistence, and no connection is
notified. -/
theorem accept_unregistered_noop (st : ServerState) (sid requestId : String)
    (h : mapGet st.activeDrivers sid = none) :
    step st (Event.acceptRide sid requestId) = st := by
  cases hr : mapGet st.rideRequests requestId with
  | none => simp [step, program, hr, runOps]
  | some request => simp [step, program, hr, h, runOps]

theorem accept_unregistered_noop_witness :
    mapGet stC9.activeDrivers "s1" = none ∧
    (mapGet stC9.rideRequests "R1").isSome = true ∧
    step stC9 (Event.acceptRide "s1" "R1") = stC9 :=
  ⟨rfl, rfl, accept_unregistered_noop stC9 "s1" "R1" rfl⟩

/-! ## Claim C5 — when a successful claim notifies, relative to the mutation -/

/-- A concrete pending insert continuation. -/
noncomputable def piC5 : PendingInsert :=
  { sid := "s0"
    requestId := "R1"
    request := ⟨"p0", ⟨0, 0⟩, ⟨0, 0⟩, ⟨50, 0, 0, 10, 60⟩, 0, 0⟩
    driver := ⟨"d0", 0, 0⟩ }

/-- Counterexample to claim C5 as stated: in the insert completion
callback the first statement already emits (`ride-accepted` to the
passenger) and the ledger deletion is the last statement, so the
notifications are sent before — not after — the request's ledger entry
is removed. -/
theorem claim_notify_before_delete_cex :
    (callbackProgram piC5 (InsertResult.ok "ride1")).head? =
      some (Op.send "p0" (Msg.rideAccepted "d0" 0 0)) ∧
    (callbackProgram piC5 (InsertResult.ok "ride1")).getLast? =
      some (Op.ledgerDelete "R1") :=
  ⟨rfl, rfl⟩

/-- Claim C5 (amended): the synchronous accept handler emits nothing at
all; every notification of a successful claim happens inside the
supabase insert's completion callback, i.e. only after the persistence
write has settled successfully — but within that callback the passenger
and driver notifications are emitted first and the ledger entry is
deleted last (the reverse of the order the claim states); the three
statements run as one atomic callback. -/
theorem claim_notifications_in_callback (st : ServerState) (sid requestId : String)
    (p : PendingInsert) (rideId : String) :
    (step st (Event.acceptRide sid requestId)).outbox = st.outbox ∧
    callbackProgram p (InsertResult.ok rideId) =
      [Op.send p.request.passengerId
          (Msg.rideAccepted p.driver.driverId p.driver.lat p.driver.lng),
        Op.send p.sid (Msg.rideStarted rideId),
        Op.ledgerDelete p.requestId] ∧
    callbackProgram p InsertResult.err = [] := by
  refine ⟨?_, rfl, rfl⟩
  cases hr : mapGet st.rideRequests requestId with
  | none => simp [step, program, hr, runOps]
  | some request =>
      cases hd : mapGet st.activeDrivers sid with
      | none => simp [step, program, hr, hd, runOps]
      | some driver => simp [step, program, hr, hd, runOps, applyOp]

/-! ## Claim C7 — the registry upsert -/

/-- A state with an empty driver registry. -/
noncomputable def stC7 : ServerState :=
  { activeDrivers := [], rideRequests := [], pendingInserts := [], outbox := [] }

/-- Counterexample to claim C7 as stated: the entry stored by a location
report is exactly `{driverId, lat, lng}` — it carries no last-update
timestamp, and the state after an upsert at time 0 is identical to the
state after the same upsert at time 99, so no timestamp of the report
can be recovered from the registry, although the claim says each entry
is stamped with the current time. -/
theorem upsert_ignores_time_cex :
    stepAt 0 stC7 (Event.driverLocation "s1" "d1" 1 2) =
      stepAt 99 stC7 (Event.driverLocation "s1" "d1" 1 2) ∧
    mapGet (stepAt 0 stC7 (Event.driverLocation "s1" "d1" 1 2)).activeDrivers "s1" =
      some ⟨"d1", 1, 2⟩ :=
  ⟨rfl, rfl⟩

/-- Claim C7 (amended): a `driver-location` report inserts or overwrites
the single registry entry for that connection with the reported position
(and the reporting user's id); every other connection's entry is
untouched, and after any sequence of upserts for one connection there is
exactly one entry for it, carrying the most recent position.  No
timestamp is stored: the handler does not read the clock. -/
theorem upsert_latest_position (st : ServerState) (now : ℕ) (sid uid : String)
    (lat lng : ℝ) :
    mapGet (stepAt now st (Event.driverLocation sid uid lat lng)).activeDrivers sid =
      some ⟨uid, lat, lng⟩ ∧
    (∀ k, k ≠ sid →
      mapGet (stepAt now st (Event.driverLocation sid uid lat lng)).activeDrivers k =
        mapGet st.activeDrivers k) ∧
    (countKey st.activeDrivers sid ≤ 1 →
      countKey (stepAt now st (Event.driverLocation sid uid lat lng)).activeDrivers sid = 1) ∧
    (stepAt now st (Event.driverLocation sid uid lat lng)).rideRequests = st.rideRequests ∧
    (stepAt now st (Event.driverLocation sid uid lat lng)).outbox = st.outbox ∧
    (stepAt now st (Event.driverLocation sid uid lat lng)).pendingInserts =
      st.pendingInserts := by
  have hstep : stepAt now st (Event.driverLocation sid uid lat lng) =
      { st with activeDrivers := mapSet st.activeDrivers sid ⟨uid, lat, lng⟩ } := rfl
  rw [hstep]
  refine ⟨mapGet_mapSet_self _ _ _, fun k hk => mapGet_mapSet_ne _ _ _ _ hk,
    fun h1 => countKey_mapSet _ _ _ h1, rfl, rfl, rfl⟩

/-! ## Claim C6 — request creation and the generated id -/

theorem mapSet_append {α : Type} (m : List (String × α)) (k : String) (v : α)
    (h : mapGet m k = none) : mapSet m k v = m ++ [(k, v)] := by
  induction m with
  | nil => rfl
  | cons p rest ih =>
      obtain ⟨k', v'⟩ := p
      by_cases hk : k' = k
      · simp [mapGet, hk] at h
      · simp only [mapGet, if_neg hk] at h
        simp [mapSet, hk, ih h]

/-- The request already in the ledger before the colliding create. -/
noncomputable def reqOld : RideRequest :=
  { passengerId := "p0"
    pickup := ⟨0, 0⟩
    dropoff := ⟨0, 0⟩
    fare := ⟨50, 0, 0, 10, 60⟩
    distance := 0
    duration := 0 }

/-- A state whose ledger already holds a request under the id "abc". -/
noncomputable def stC6 : ServerState :=
  { activeDrivers := [], rideRequests := [("abc", reqOld)], pendingInserts := [], outbox := [] }

/-- Counterexample to claim C6 as stated: the id of a new request comes
from `Math.random().toString(36)` with no freshness check, and when the
generated id collides with an existing ledger key, `Map.set` overwrites
that entry: after a `request-ride` from passenger "p9" that draws the
already-used id "abc", the ledger entry under "abc" belongs to "p9" and
passenger "p0"'s request is gone — `create` does overwrite an existing
ledger entry. -/
theorem create_collision_overwrites_cex :
    mapGet stC6.rideRequests "abc" = some reqOld ∧
    reqOld.passengerId = "p0" ∧
    (mapGet (step stC6 (Event.requestRide "s9" "p9" ⟨0, 0⟩ ⟨0, 0⟩ "abc")).rideRequests
        "abc").map RideRequest.passengerId = some "p9" ∧
    ("p9" == "p0") = false :=
  ⟨rfl, rfl, rfl, rfl⟩

/-- Claim C6 (amended): the `request-ride` handler stores the new
request (implicitly PENDING, by being an outstanding ledger entry) under
the id the random generator produced and returns that id with the
computed fare to the requesting passenger.  When the generated id is not
already a ledger key — the only guarantee is probabilistic, the code
never checks — the entry is appended and no existing entry is
overwritten or otherwise changed; on a collision the old entry is
overwritten. -/
theorem create_fresh_id_adds (st : ServerState) (sid uid : String)
    (pickup dropoff : Coord) (freshId : String)
    (h : mapGet st.rideRequests freshId = none) :
    (step st (Event.requestRide sid uid pickup dropoff freshId)).rideRequests =
      st.rideRequests ++ [(freshId, mkRideRequest uid pickup dropoff)] ∧
    ∃ notes, (step st (Event.requestRide sid uid pickup dropoff freshId)).outbox =
      st.outbox ++ notes ++
        [(sid, Msg.requestSent freshId (mkRideRequest uid pickup dropoff).fare)] := by
  rw [step_requestRide]
  refine ⟨mapSet_append _ _ _ h,
    ⟨(st.activeDrivers.filter
        (fun p => decide (getDistance p.2.lat p.2.lng pickup.lat pickup.lng < 5))).map
      (fun p =>
        (p.1, Msg.newRideRequest freshId pickup dropoff (mkRideRequest uid pickup dropoff).fare)),
      ?_⟩⟩
  simp [List.append_assoc]

theorem create_fresh_id_adds_witness :
    mapGet stC7.rideRequests "xyz" = none ∧
    (step stC7 (Event.requestRide "s1" "p1" ⟨0, 0⟩ ⟨0, 0⟩ "xyz")).rideRequests =
      stC7.rideRequests ++ [("xyz", mkRideRequest "p1" ⟨0, 0⟩ ⟨0, 0⟩)] :=
  ⟨rfl, (create_fresh_id_adds stC7 "s1" "p1" ⟨0, 0⟩ ⟨0, 0⟩ "xyz" rfl).1⟩

/-! ## Claim C4 — the broadcast reaches exactly the nearby drivers -/

/-- Is a message a `new-ride-request` notification? -/
def isNewRideRequest : Msg → Bool
  | .newRideRequest _ _ _ _ => true
  | _ => false

/-- Claim C4: processing a `request-ride` appends to the outbox exactly
one `new-ride-request` notification (carrying the request id, pickup,
dropoff and computed fare) per driver connection whose registered
position at call time is strictly within 5 km of the pickup, and nothing
of that kind to anyone else; drivers outside the radius, and position
updates after the call, cannot affect the set. -/
theorem broadcast_exactly_nearby (st : ServerState) (sid uid : String)
    (pickup dropoff : Coord) (freshId : String) :
    ∃ extra,
      (step st (Event.requestRide sid uid pickup dropoff freshId)).outbox =
        st.outbox ++ extra ∧
      ∀ d msg, ((d, msg) ∈ extra ∧ isNewRideRequest msg = true) ↔
        ∃ e : DriverEntry, (d, e) ∈ st.activeDrivers ∧
          getDistance e.lat e.lng pickup.lat pickup.lng < 5 ∧
          msg = Msg.newRideRequest freshId pickup dropoff
            (mkRideRequest uid pickup dropoff).fare := by
  refine ⟨(st.activeDrivers.filter
      (fun p => decide (getDistance p.2.lat p.2.lng pickup.lat pickup.lng < 5))).map
      (fun p =>
        (p.1, Msg.newRideRequest freshId pickup dropoff (mkRideRequest uid pickup dropoff).fare))
      ++ [(sid, Msg.requestSent freshId (mkRideRequest uid pickup dropoff).fare)],
    by rw [step_requestRide], ?_⟩
  intro d msg
  constructor
  · rintro ⟨hmem, hnew⟩
    rcases List.mem_append.1 hmem with hbc | hlast
    · rcases List.mem_map.1 hbc with ⟨p, hp, hpe⟩
      rcases List.mem_filter.1 hp with ⟨hpin, hdec⟩
      obtain ⟨k, e⟩ := p
      obtain ⟨hd, hm⟩ := Prod.mk.injEq .. ▸ hpe
      subst hd
      subst hm
      exact ⟨e, hpin, by simpa using hdec, rfl⟩
    · simp only [List.mem_singleton, Prod.mk.injEq] at hlast
      rw [hlast.2] at hnew
      simp [isNewRideRequest] at hnew
  · rintro ⟨e, he, hlt, rfl⟩
    refine ⟨List.mem_append_left _ (List.mem_map.2
      ⟨(d, e), List.mem_filter.2 ⟨he, by simpa using hlt⟩, rfl⟩), rfl⟩

/-! ## Claim C10 — the ledger write precedes every notification -/

/-- Claim C10: the `request-ride` handler body is the ledger write
followed by nothing but emits: the new request is stored under the
generated id before any `new-ride-request` notification and before the
`request-sent` receipt is emitted, and consequently, once the handler
has run, every notified driver finds the request in the ledger. -/
theorem request_stored_before_notify (st : ServerState) (sid uid : String)
    (pickup dropoff : Coord) (freshId : String) :
    (∃ sends : List Emission,
      program st (Event.requestRide sid uid pickup dropoff freshId) =
        Op.ledgerSet freshId (mkRideRequest uid pickup dropoff) ::
          (sends.map fun p => Op.send p.1 p.2)) ∧
    mapGet (step st (Event.requestRide sid uid pickup dropoff freshId)).rideRequests
      freshId = some (mkRideRequest uid pickup dropoff) := by
  constructor
  · refine ⟨(st.activeDrivers.filter
        (fun p => decide (getDistance p.2.lat p.2.lng pickup.lat pickup.lng < 5))).map
        (fun p =>
          (p.1, Msg.newRideRequest freshId pickup dropoff (mkRideRequest uid pickup dropoff).fare))
        ++ [(sid, Msg.requestSent freshId (mkRideRequest uid pickup dropoff).fare)], ?_⟩
    simp [program, List.cons_append, List.map_append, List.map_map, Function.comp]
  · rw [step_requestRide]
    exact mapGet_mapSet_self _ _ _

/-! ## Claim C1 — the accept race -/

/-- Is a message a `ride-started` success signal to a driver? -/
def isRideStarted : Msg → Bool
  | .rideStarted _ => true
  | _ => false

/-- A state with two registered drivers and one PENDING request "R1". -/
noncomputable def stRace : ServerState :=
  { activeDrivers := [("s1", ⟨"d1", 0, 0⟩), ("s2", ⟨"d2", 0, 0⟩)]
    rideRequests := [("R1", ⟨"p0", ⟨0, 0⟩, ⟨0, 0⟩, ⟨50, 0, 0, 10, 60⟩, 0, 0⟩)]
    pendingInserts := []
    outbox := [] }

/-- Two accepts for "R1" arrive before either supabase insert settles —
exactly the "two accept signals within the same instant" interleaving —
and then both inserts succeed. -/
noncomputable def raceEvents : List Event :=
  [Event.acceptRide "s1" "R1", Event.acceptRide "s2" "R1",
    Event.insertComplete 0 (InsertResult.ok "ride1"),
    Event.insertComplete 0 (InsertResult.ok "ride2")]

/-- Claim C1 fails on the code: the `accept-ride` handler checks the
ledger synchronously but removes the entry only inside the insert's
`.then` continuation, so when two accepts for the same PENDING request
are delivered before the first insert settles, both pass the check, both
inserts are issued, and both drivers receive the `ride-started` success
signal (and the passenger two `ride-accepted` notifications): two of the
two attempts succeed, not exactly one. -/
theorem accept_race_two_successes :
    ((runEvents stRace raceEvents).outbox.filter fun p => isRideStarted p.2).length = 2 ∧
    (runEvents stRace raceEvents).outbox.map Prod.fst = ["p0", "s1", "p0", "s2"] ∧
    mapGet (runEvents stRace raceEvents).rideRequests "R1" = none :=
  ⟨rfl, rfl, rfl⟩

end RemisDispatch
